import Mathlib

/-!
Verification of the Purchasing Power Pig simulation core.

The JavaScript sources are embedded shallowly:

* JS numbers are modelled as real numbers (`ℝ`); `Math.pow` with a real
  exponent is `Real.rpow`, `Math.log10` is `Real.logb 10`, `Math.round`
  is `jsRound` (floor of `x + 1/2`, which is JS half-up rounding),
  `Math.min`/`Math.max` are `min`/`max`.
* Calendar dates are modelled by the one quantity the financial code reads
  from them: the real number of days since the Bitcoin genesis block
  (2009-01-03).  `StateManager.advanceMonth` delegates month arithmetic to
  the host date library, so the embedded `advanceMonth` receives the new
  date as an input.  The ghost field `monthsAdvanced` mirrors
  `getMonthsElapsed` (month difference between `currentSimDate` and
  `simulationStartDate`): it is 0 after `reset` (which makes the two dates
  equal) and grows by one per `advanceMonth` (`setMonth(m+1)`); JS
  end-of-month overflow is an accepted host behaviour and is not modelled.
* The `StateManager` methods of state-manager.js (src/unnamed/part_004)
  become functions `SimState → SimState` (paired with their JS return value
  where they have one); the settings-cache reads (`getMonthlySavings`,
  `getMonthlyInflationRate`, `getStartingAmount`) become explicit arguments
  sampled at call time, exactly as the UI layer supplies them.
* The app layer (app.js) is embedded as an event-step system: each timer or
  drop-landing callback is one event, mutating an `AppState` that carries
  the `sessionId` counter used to invalidate stale inflation callbacks.
-/

open Real

noncomputable section

/-- JS `Math.round`: half-up rounding, `⌊x + 1/2⌋`. -/
def jsRound (x : ℝ) : ℤ := ⌊x + 1/2⌋

/-- financial-math.js `getMonthlyCompoundRate(annualRate)`:
`Math.pow(1 + annualRate, 1/12) - 1`. -/
def getMonthlyCompoundRate (annualRate : ℝ) : ℝ :=
  (1 + annualRate) ^ ((1 : ℝ)/12) - 1

/-- financial-math.js `monthlyToAnnualRate(monthlyRate)`:
`Math.pow(1 + monthlyRate, 12) - 1`. -/
def monthlyToAnnualRate (monthlyRate : ℝ) : ℝ :=
  (1 + monthlyRate) ^ (12 : ℕ) - 1

/-- financial-math.js `calculateBalancedStartAmount(monthlySavings,
annualInflationPercent, roundTo, min, max)` with all five parameters
explicit (the JS defaults are `roundTo=1000, min=0, max=100000`). -/
def calculateBalancedStartAmount (monthlySavings annualInflationPercent roundTo lo hi : ℝ) : ℝ :=
  let annualInflation := annualInflationPercent / 100
  if annualInflation = 0 then hi
  else
    let monthlyRate := getMonthlyCompoundRate annualInflation
    let calculatedAmount := monthlySavings / monthlyRate
    let rounded := (jsRound (calculatedAmount / roundTo) : ℝ) * roundTo
    max lo (min hi rounded)

/-- Specialisation of `calculateBalancedStartAmount` to its JS default parameters. -/
def calculateBalancedStartAmountD (monthlySavings annualInflationPercent : ℝ) : ℝ :=
  calculateBalancedStartAmount monthlySavings annualInflationPercent 1000 0 100000

/-- financial-math.js `calculateBalancedSavings(startingAmount,
annualInflationPercent, roundTo, min, max)` with all five parameters
explicit (the JS defaults are `roundTo=10, min=0, max=1000`). -/
def calculateBalancedSavings (startingAmount annualInflationPercent roundTo lo hi : ℝ) : ℝ :=
  let annualInflation := annualInflationPercent / 100
  let monthlyRate := getMonthlyCompoundRate annualInflation
  let calculatedSavings := startingAmount * monthlyRate
  let rounded := (jsRound (calculatedSavings / roundTo) : ℝ) * roundTo
  max lo (min hi rounded)

/-- Specialisation of `calculateBalancedSavings` to its JS default parameters. -/
def calculateBalancedSavingsD (startingAmount annualInflationPercent : ℝ) : ℝ :=
  calculateBalancedSavings startingAmount annualInflationPercent 10 0 1000

/-- financial-math.js `calculateMonthlyInflationLoss(currentBalance,
annualInflationPercent)`. -/
def calculateMonthlyInflationLoss (currentBalance annualInflationPercent : ℝ) : ℝ :=
  currentBalance * getMonthlyCompoundRate (annualInflationPercent / 100)

/-- financial-math.js `calculateInflationLossFromFactor(totalSavings,
oldFactor, newFactor)`: `max(0, totalSavings/oldFactor - totalSavings/newFactor)`. -/
def calculateInflationLossFromFactor (totalSavings oldFactor newFactor : ℝ) : ℝ :=
  max 0 (totalSavings / oldFactor - totalSavings / newFactor)

/-- Power-law constant C from financial-math.js (`-17.0161223`). -/
def powerLawC : ℝ := -17.0161223

/-- Power-law constant D from financial-math.js (`5.8451542`). -/
def powerLawD : ℝ := 5.8451542

/-- financial-math.js `getBitcoinPowerLawPrice(date)`:
`10^(C + D·log10(daysSinceGenesis))`.  The date argument is the number of
days since the genesis block (the only quantity the JS function derives
from its `Date`). -/
def getBitcoinPowerLawPrice (daysSinceGenesis : ℝ) : ℝ :=
  (10 : ℝ) ^ (powerLawC + powerLawD * Real.logb 10 daysSinceGenesis)

/-- financial-math.js `convertUsdToBtc(usdAmount, date)`. -/
def convertUsdToBtc (usdAmount date : ℝ) : ℝ :=
  usdAmount / getBitcoinPowerLawPrice date

/-- financial-math.js `convertBtcToUsd(btcAmount, date)`. -/
def convertBtcToUsd (btcAmount date : ℝ) : ℝ :=
  btcAmount * getBitcoinPowerLawPrice date

/-- config.js `CONFIG.PIG_CAPACITY_DOLLARS`. -/
def PIG_CAPACITY_DOLLARS : ℝ := 100000

/-- config.js `CONFIG.MUG_CAPACITY_DOLLARS`. -/
def MUG_CAPACITY_DOLLARS : ℝ := 70000

/-- config.js helper `calculateMugDropVolume(dollarAmount)`:
`dollarAmount / MUG_CAPACITY_DOLLARS * 100`. -/
def calculateMugDropVolume (dollarAmount : ℝ) : ℝ :=
  dollarAmount / MUG_CAPACITY_DOLLARS * 100

/-- financial-math.js `calculateFullPigInBtc(date)`: converts the pig's
dollar capacity to BTC at the given date, returning 0 when the capacity or
the conversion result is non-positive (the JS `isNaN` guard has no ℝ
counterpart: the model's price is always a real number). -/
def calculateFullPigInBtc (date : ℝ) : ℝ :=
  if PIG_CAPACITY_DOLLARS ≤ 0 then 0
  else
    let btcAmount := convertUsdToBtc PIG_CAPACITY_DOLLARS date
    if btcAmount ≤ 0 then 0 else btcAmount

/-- The savings vehicle string constant of state-manager.js. -/
inductive Vehicle where
  | usd
  | btc
deriving DecidableEq, Repr

/-- The simulation-relevant fields of the `StateManager` state record of
state-manager.js (UI/viewport fields are outside the core).  Dates are
days since genesis; `monthsAdvanced` is the ghost month counter described
in the file header. -/
structure SimState where
  fillLevel : ℝ
  totalSavings : ℝ
  totalSavingsBtc : ℝ
  nominalDollarsSaved : ℝ
  totalBankSavings : ℝ
  mugFillLevel : ℝ
  currentSimDate : ℝ
  simulationStartDate : ℝ
  savingsVehicle : Vehicle
  fullPigBtcCapacity : ℝ
  cumulativeInflationFactor : ℝ
  lastDropTime : ℝ
  isPaused : Bool
  isStartState : Bool
  isSimulationFinished : Bool
  monthsAdvanced : ℕ

/-- state-manager.js `updateFillLevel(level)`:
`fillLevel = Math.min(100, Math.max(0, level))`. -/
def SimState.updateFillLevel (s : SimState) (level : ℝ) : SimState :=
  { s with fillLevel := min 100 (max 0 level) }

/-- state-manager.js `updateMugFillLevel(level)`. -/
def SimState.updateMugFillLevel (s : SimState) (level : ℝ) : SimState :=
  { s with mugFillLevel := min 100 (max 0 level) }

/-- state-manager.js `addToTotalSavings(amount)`. -/
def SimState.addToTotalSavings (s : SimState) (amount : ℝ) : SimState :=
  { s with totalSavings := s.totalSavings + amount }

/-- state-manager.js `addToBankSavings(amount)`. -/
def SimState.addToBankSavings (s : SimState) (amount : ℝ) : SimState :=
  { s with totalBankSavings := s.totalBankSavings + amount }

/-- state-manager.js `applyMonthlyInflation()`.  The monthly rate is read
from the settings cache at call time and is therefore a parameter here.
Returns the new state together with the dollar loss the JS method returns. -/
def SimState.applyMonthlyInflation (s : SimState) (monthlyRate : ℝ) : SimState × ℝ :=
  let oldFactor := s.cumulativeInflationFactor
  let newFactor := oldFactor * (1 + monthlyRate)
  let s1 : SimState := { s with cumulativeInflationFactor := newFactor }
  let purchasingPower := s1.totalSavings / newFactor
  let newFillLevel := purchasingPower / PIG_CAPACITY_DOLLARS * 100
  let s2 := s1.updateFillLevel newFillLevel
  let inflationDollars := calculateInflationLossFromFactor s2.totalSavings oldFactor newFactor
  (s2, inflationDollars)

/-- state-manager.js `addMonthlySavingsToPig()`.  The monthly savings
amount is read from the settings cache at call time and is a parameter
here.  Returns the new state and the JS boolean result. -/
def SimState.addMonthlySavingsToPig (s : SimState) (monthlySavings : ℝ) : SimState × Bool :=
  if monthlySavings = 0 then (s, false)
  else
    match s.savingsVehicle with
    | Vehicle.btc =>
      let btcAmount := convertUsdToBtc monthlySavings s.currentSimDate
      let newTotalBtc := s.totalSavingsBtc + btcAmount
      let s1 : SimState :=
        { s with totalSavingsBtc := newTotalBtc
                 nominalDollarsSaved := s.nominalDollarsSaved + monthlySavings }
      let newFillLevel := newTotalBtc / s1.fullPigBtcCapacity * 100
      if 100 ≤ newFillLevel then (s1.updateFillLevel 100, false)
      else (s1.updateFillLevel newFillLevel, true)
    | Vehicle.usd =>
      let s1 := s.addToTotalSavings monthlySavings
      let s2 : SimState := { s1 with nominalDollarsSaved := s1.nominalDollarsSaved + monthlySavings }
      let purchasingPower := s2.totalSavings / s2.cumulativeInflationFactor
      let newFillLevel := purchasingPower / PIG_CAPACITY_DOLLARS * 100
      if 100 ≤ newFillLevel then (s2.updateFillLevel 100, false)
      else (s2.updateFillLevel newFillLevel, true)

/-- state-manager.js `addInflationLossToMug(dollarAmount)`.  Returns the
new state and the JS boolean result. -/
def SimState.addInflationLossToMug (s : SimState) (dollarAmount : ℝ) : SimState × Bool :=
  if dollarAmount ≤ 0 then (s, false)
  else
    let s1 := s.addToBankSavings dollarAmount
    if s1.mugFillLevel < 100 then
      let dropVolume := calculateMugDropVolume dollarAmount
      (s1.updateMugFillLevel (s1.mugFillLevel + dropVolume), true)
    else (s1, false)

/-- state-manager.js `advanceMonth()`: `currentSimDate` becomes the host
date library's result of `setMonth(month + 1)`, supplied as `newDate`.
The ghost month counter grows by one. -/
def SimState.advanceMonth (s : SimState) (newDate : ℝ) : SimState :=
  { s with currentSimDate := newDate, monthsAdvanced := s.monthsAdvanced + 1 }

/-- state-manager.js `togglePause()`. -/
def SimState.togglePause (s : SimState) : SimState :=
  { s with isPaused := !s.isPaused }

/-- state-manager.js `setPaused(paused)`. -/
def SimState.setPaused (s : SimState) (paused : Bool) : SimState :=
  { s with isPaused := paused }

/-- state-manager.js `convertSavingsVehicle(fromVehicle, toVehicle)`. -/
def SimState.convertSavingsVehicle (s : SimState) (fromVehicle toVehicle : Vehicle) : SimState :=
  if fromVehicle = Vehicle.usd ∧ toVehicle = Vehicle.btc then
    { s with totalSavingsBtc := convertUsdToBtc s.totalSavings s.currentSimDate }
  else if fromVehicle = Vehicle.btc ∧ toVehicle = Vehicle.usd then
    { s with totalSavings := convertBtcToUsd s.totalSavingsBtc s.currentSimDate }
  else s

/-- state-manager.js `setSavingsVehicle(newVehicle)`. -/
def SimState.setSavingsVehicle (s : SimState) (newVehicle : Vehicle) : SimState :=
  let s1 := if s.savingsVehicle ≠ newVehicle
            then s.convertSavingsVehicle s.savingsVehicle newVehicle
            else s
  { s1 with savingsVehicle := newVehicle }

/-- state-manager.js `reset(startAmount)`.  `amount` is the resolved
starting amount (the JS method falls back to the settings cache when the
argument is null) and `startDate` is `new Date()` at reset time, both
supplied by the caller.  The ghost month counter returns to 0 because
`currentSimDate` and `simulationStartDate` coincide again. -/
def SimState.reset (s : SimState) (amount startDate : ℝ) : SimState :=
  let fullPigBtc := calculateFullPigInBtc startDate
  let startAmountBtc := convertUsdToBtc amount startDate
  let initialFillLevel :=
    if s.savingsVehicle = Vehicle.btc then startAmountBtc / fullPigBtc * 100
    else amount / PIG_CAPACITY_DOLLARS * 100
  { s with
      fillLevel := initialFillLevel
      totalSavings := amount
      totalSavingsBtc := startAmountBtc
      nominalDollarsSaved := amount
      totalBankSavings := 0
      mugFillLevel := 0
      lastDropTime := 0
      isPaused := false
      isSimulationFinished := false
      currentSimDate := startDate
      simulationStartDate := startDate
      fullPigBtcCapacity := fullPigBtc
      cumulativeInflationFactor := 1
      monthsAdvanced := 0 }

/-- Modelled from the spec: no code under src sets `isSimulationFinished`
to true (only its declaration, reset-to-false and consumers are present).
Per the spec, `Finished` is entered once `advanceMonth` has occurred 360
times since `simulationStartDate`, so the modelled month advance sets the
flag as soon as the months elapsed reach 360. -/
def SimState.advanceMonthFinishing (s : SimState) (newDate : ℝ) : SimState :=
  let s1 := s.advanceMonth newDate
  { s1 with isSimulationFinished := decide (360 ≤ s1.monthsAdvanced) }

/-- One call into the `StateManager` transition interface, with the
settings-cache inputs it samples carried as payload. -/
inductive SimOp where
  | resetOp (amount startDate : ℝ)
  | saveOp (monthlySavings : ℝ)
  | inflOp (monthlyRate : ℝ)
  | mugOp (dollarAmount : ℝ)
  | advOp (newDate : ℝ)
  | advFinOp (newDate : ℝ)
  | vehOp (v : Vehicle)
  | pauseOp (b : Bool)

/-- Apply one transition to the state (dropping the JS return values). -/
def applySimOp (op : SimOp) (s : SimState) : SimState :=
  match op with
  | SimOp.resetOp amount startDate => s.reset amount startDate
  | SimOp.saveOp m => (s.addMonthlySavingsToPig m).1
  | SimOp.inflOp r => (s.applyMonthlyInflation r).1
  | SimOp.mugOp d => (s.addInflationLossToMug d).1
  | SimOp.advOp d => s.advanceMonth d
  | SimOp.advFinOp d => s.advanceMonthFinishing d
  | SimOp.vehOp v => s.setSavingsVehicle v
  | SimOp.pauseOp b => s.setPaused b

/-- Run a sequence of transitions left to right. -/
def runOps (ops : List SimOp) (s : SimState) : SimState :=
  ops.foldl (fun t op => applySimOp op t) s

/-- The app.js state visible to the session-cancellation protocol: the
`sessionId` counter plus the simulation state. -/
structure AppState where
  sessionId : ℕ
  sim : SimState

/-- One app.js event touching the engine: restart, start, a savings drop
landing (which runs `addMonthlySavingsToPig` then `advanceMonth` and
schedules an inflation callback capturing the current session id), a
scheduled inflation callback firing with its captured id, a mug drop
landing, pause/resume/toggle, and a vehicle switch. -/
inductive AppEvent where
  | restartApp (amount startDate : ℝ)
  | startApp
  | savingsDropLand (monthlySavings newDate : ℝ)
  | inflationFire (captured : ℕ) (monthlyRate : ℝ)
  | mugDropLand (amount : ℝ)
  | setPausedApp (b : Bool)
  | togglePauseApp
  | setVehicleApp (v : Vehicle)

/-- app.js event semantics.  `restart` increments the session id as its
first action and then resets the simulation; `start` also increments it;
a firing inflation callback first compares its captured session id with
the current one and silently returns when they differ. -/
def stepApp (e : AppEvent) (a : AppState) : AppState :=
  match e with
  | AppEvent.restartApp amount d =>
      { sessionId := a.sessionId + 1, sim := a.sim.reset amount d }
  | AppEvent.startApp => { a with sessionId := a.sessionId + 1 }
  | AppEvent.savingsDropLand m d =>
      { a with sim := ((a.sim.addMonthlySavingsToPig m).1).advanceMonth d }
  | AppEvent.inflationFire captured r =>
      if a.sessionId ≠ captured then a
      else { a with sim := (a.sim.applyMonthlyInflation r).1 }
  | AppEvent.mugDropLand amt => { a with sim := (a.sim.addInflationLossToMug amt).1 }
  | AppEvent.setPausedApp b => { a with sim := a.sim.setPaused b }
  | AppEvent.togglePauseApp => { a with sim := a.sim.togglePause }
  | AppEvent.setVehicleApp v => { a with sim := a.sim.setSavingsVehicle v }

/-- Run a sequence of app events left to right. -/
def runApp (evs : List AppEvent) (a : AppState) : AppState :=
  evs.foldl (fun b e => stepApp e b) a

/-- A neutral concrete state used by witnesses and counterexamples. -/
def sampleState : SimState :=
  { fillLevel := 50
    totalSavings := 50000
    totalSavingsBtc := 0
    nominalDollarsSaved := 50000
    totalBankSavings := 0
    mugFillLevel := 0
    currentSimDate := 6000
    simulationStartDate := 6000
    savingsVehicle := Vehicle.usd
    fullPigBtcCapacity := 1
    cumulativeInflationFactor := 1
    lastDropTime := 0
    isPaused := false
    isStartState := false
    isSimulationFinished := false
    monthsAdvanced := 0 }

end

/-! ### Basic facts about the financial primitives -/

lemma btcPrice_pos (t : ℝ) : 0 < getBitcoinPowerLawPrice t :=
  Real.rpow_pos_of_pos (by norm_num) _

lemma monthlyRate_nonneg {a : ℝ} (ha : 0 ≤ a) : 0 ≤ getMonthlyCompoundRate a := by
  have h2 : (1 : ℝ) ≤ (1 + a) ^ ((1 : ℝ)/12) := by
    calc (1 : ℝ) = (1 : ℝ) ^ ((1 : ℝ)/12) := (Real.one_rpow _).symm
    _ ≤ (1 + a) ^ ((1 : ℝ)/12) :=
        Real.rpow_le_rpow (by norm_num) (by linarith) (by norm_num)
  simp only [getMonthlyCompoundRate]
  linarith

lemma monthlyRate_pos {a : ℝ} (ha : 0 < a) : 0 < getMonthlyCompoundRate a := by
  have h2 : (1 : ℝ) < (1 + a) ^ ((1 : ℝ)/12) :=
    (Real.one_lt_rpow_iff_of_pos (by linarith)).mpr (Or.inl ⟨by linarith, by norm_num⟩)
  simp only [getMonthlyCompoundRate]
  linarith

/-! ### C6: USD to BTC to USD round trip -/

/-- C6.  Starting from any state holding the USD vehicle, switching to BTC
and immediately back to USD at the same simulated date restores
`totalSavings` exactly: both conversions go through the same power-law
price point.  The date hypothesis records that the power-law price is only
meaningful after the genesis block (in JS a non-positive day count gives
NaN). -/
theorem vehicle_switch_round_trip (s : SimState)
    (hveh : s.savingsVehicle = Vehicle.usd) (_hdate : 0 < s.currentSimDate) :
    ((s.setSavingsVehicle Vehicle.btc).setSavingsVehicle Vehicle.usd).totalSavings
      = s.totalSavings := by
  have hp : getBitcoinPowerLawPrice s.currentSimDate ≠ 0 :=
    (btcPrice_pos s.currentSimDate).ne'
  simp only [SimState.setSavingsVehicle, SimState.convertSavingsVehicle, hveh]
  simp only [ne_eq, reduceCtorEq, not_false_eq_true, if_true, and_self, if_false,
    and_false, false_and, if_neg, not_true_eq_false]
  simp [convertUsdToBtc, convertBtcToUsd, div_mul_cancel₀ _ hp]

/-- C6 witness at a concrete state. -/
theorem vehicle_switch_round_trip_witness :
    ((sampleState.setSavingsVehicle Vehicle.btc).setSavingsVehicle Vehicle.usd).totalSavings
      = sampleState.totalSavings :=
  vehicle_switch_round_trip sampleState rfl (by norm_num [sampleState])

/-! ### C1: session-id cancellation of in-flight inflation callbacks -/

lemma inflationFire_stale (b : AppState) (c : ℕ) (r : ℝ) (h : b.sessionId ≠ c) :
    stepApp (AppEvent.inflationFire c r) b = b := by
  simp [stepApp, h]

lemma sessionId_le_stepApp (e : AppEvent) (a : AppState) :
    a.sessionId ≤ (stepApp e a).sessionId := by
  cases e with
  | inflationFire c r =>
    simp only [stepApp]
    split
    · exact le_refl _
    · exact le_refl _
  | restartApp amount d => simp [stepApp]
  | startApp => simp [stepApp]
  | savingsDropLand m d => simp [stepApp]
  | mugDropLand amt => simp [stepApp]
  | setPausedApp b => simp [stepApp]
  | togglePauseApp => simp [stepApp]
  | setVehicleApp v => simp [stepApp]

lemma sessionId_le_runApp (evs : List AppEvent) (a : AppState) :
    a.sessionId ≤ (runApp evs a).sessionId := by
  induction evs generalizing a with
  | nil => simp [runApp]
  | cons e t ih =>
    simp only [runApp, List.foldl_cons]
    exact le_trans (sessionId_le_stepApp e a) (ih (stepApp e a))

/-- C1.  An inflation callback captured a session id no newer than the
current one (`hsched`); if a restart happens before it fires, then whatever
other events follow, the firing callback changes nothing: restart
increments the session id as its first action and the id never decreases,
so the callback's guard sees a mismatch and returns the state untouched. -/
theorem session_cancellation (a : AppState) (captured : ℕ)
    (monthlyRate amount startDate : ℝ) (evs : List AppEvent)
    (hsched : captured ≤ a.sessionId) :
    stepApp (AppEvent.inflationFire captured monthlyRate)
        (runApp evs (stepApp (AppEvent.restartApp amount startDate) a))
      = runApp evs (stepApp (AppEvent.restartApp amount startDate) a) := by
  have h1 : a.sessionId + 1
      ≤ (runApp evs (stepApp (AppEvent.restartApp amount startDate) a)).sessionId := by
    have h := sessionId_le_runApp evs (stepApp (AppEvent.restartApp amount startDate) a)
    simpa [stepApp] using h
  have hne : (runApp evs (stepApp (AppEvent.restartApp amount startDate) a)).sessionId
      ≠ captured := by omega
  exact inflationFire_stale _ _ _ hne

/-- C1 witness: a concrete scheduled callback, restart, then fire. -/
theorem session_cancellation_witness :
    stepApp (AppEvent.inflationFire 0 0)
        (runApp [] (stepApp (AppEvent.restartApp 0 1) ⟨0, sampleState⟩))
      = runApp [] (stepApp (AppEvent.restartApp 0 1) ⟨0, sampleState⟩) :=
  session_cancellation ⟨0, sampleState⟩ 0 0 0 1 [] (le_refl 0)

/-! ### C3: effect of applyMonthlyInflation -/

/-- C3 (amended).  `applyMonthlyInflation` multiplies the cumulative
inflation factor by `(1 + monthlyRate)` and — for both savings vehicles
alike, there is no vehicle branch in the method — recomputes `fillLevel`
as `(totalSavings / newFactor) / PIG_CAPACITY_DOLLARS * 100`, clamped to
`[0,100]`; it returns the dollar loss computed by
`calculateInflationLossFromFactor`.  All other fields are unchanged. -/
theorem inflation_effect (s : SimState) (monthlyRate : ℝ) :
    (s.applyMonthlyInflation monthlyRate).1
      = { s with
          cumulativeInflationFactor := s.cumulativeInflationFactor * (1 + monthlyRate)
          fillLevel := min 100 (max 0
            (s.totalSavings / (s.cumulativeInflationFactor * (1 + monthlyRate))
              / PIG_CAPACITY_DOLLARS * 100)) } ∧
    (s.applyMonthlyInflation monthlyRate).2
      = calculateInflationLossFromFactor s.totalSavings s.cumulativeInflationFactor
          (s.cumulativeInflationFactor * (1 + monthlyRate)) := by
  constructor <;> rfl

/-- C3 counterexample to the claim as stated: in BTC mode
`applyMonthlyInflation` does NOT leave `fillLevel` unchanged.  The state
below is reachable (reset with a zero start amount in BTC mode followed by
BTC-mode deposits raises `fillLevel` while `totalSavings` stays 0); one
inflation step then clobbers `fillLevel` from 80 to 0, because the method
recomputes it from the USD-mode formula in every vehicle. -/
theorem inflation_btc_fill_counterexample :
    (({ sampleState with savingsVehicle := Vehicle.btc, totalSavings := 0, fillLevel := 80 }
        : SimState).applyMonthlyInflation (1/100)).1.fillLevel = 0 ∧
    ({ sampleState with savingsVehicle := Vehicle.btc, totalSavings := 0, fillLevel := 80 }
        : SimState).fillLevel = 80 := by
  constructor
  · simp [SimState.applyMonthlyInflation, SimState.updateFillLevel]
  · rfl

/-! ### C9: addInflationLossToMug error handling and effect -/

/-- C9.  With `dollars ≤ 0` the method is an atomic no-op returning false.
With `dollars > 0` (and the mug fill level within its invariant range) it
always adds the amount to `totalBankSavings`, raises `mugFillLevel` by
`dollars / MUG_CAPACITY_DOLLARS * 100` clamped to at most 100, leaves every
other field unchanged, and its boolean result reports exactly whether the
mug had remaining capacity. -/
theorem mug_effect :
    (∀ (s : SimState) (d : ℝ), d ≤ 0 → s.addInflationLossToMug d = (s, false)) ∧
    (∀ (s : SimState) (d : ℝ), 0 < d → 0 ≤ s.mugFillLevel → s.mugFillLevel ≤ 100 →
      (s.addInflationLossToMug d).1
          = { s with
                totalBankSavings := s.totalBankSavings + d
                mugFillLevel := min 100 (s.mugFillLevel + calculateMugDropVolume d) } ∧
      (s.addInflationLossToMug d).2 = decide (s.mugFillLevel < 100)) := by
  constructor
  · intro s d hd
    simp [SimState.addInflationLossToMug, hd]
  · intro s d hd h0 h100
    have hvol : 0 < calculateMugDropVolume d := by
      simp only [calculateMugDropVolume, MUG_CAPACITY_DOLLARS]
      positivity
    have hnot : ¬ d ≤ 0 := not_le.mpr hd
    by_cases hm : s.mugFillLevel < 100
    · have hmax : max 0 (s.mugFillLevel + calculateMugDropVolume d)
          = s.mugFillLevel + calculateMugDropVolume d := max_eq_right (by linarith)
      simp [SimState.addInflationLossToMug, hnot, hm, SimState.addToBankSavings,
        SimState.updateMugFillLevel, hmax]
    · have hme : s.mugFillLevel = 100 := le_antisymm h100 (not_lt.mp hm)
      have hmin : min 100 (s.mugFillLevel + calculateMugDropVolume d)
          = s.mugFillLevel := by
        rw [hme]
        exact min_eq_left (by linarith)
      simp [SimState.addInflationLossToMug, hnot, hm, SimState.addToBankSavings, hmin]

/-- C9 witness: the no-op case at `-1` and the effect case at `70`. -/
theorem mug_effect_witness :
    sampleState.addInflationLossToMug (-1) = (sampleState, false) ∧
    (sampleState.addInflationLossToMug 70).1
        = { sampleState with
            totalBankSavings := sampleState.totalBankSavings + 70
            mugFillLevel := min 100 (sampleState.mugFillLevel + calculateMugDropVolume 70) } :=
  ⟨mug_effect.1 sampleState (-1) (by norm_num),
   (mug_effect.2 sampleState 70 (by norm_num) (by norm_num [sampleState])
      (by norm_num [sampleState])).1⟩

/-! ### C10: totalSavings equals nominalDollarsSaved in pure-USD runs -/

/-- True exactly on `setSavingsVehicle` operations. -/
def SimOp.isVehicleSwitch : SimOp → Bool
  | SimOp.vehOp _ => true
  | _ => false

lemma usdSync_step (op : SimOp) (t : SimState) (hop : op.isVehicleSwitch = false)
    (hv : t.savingsVehicle = Vehicle.usd)
    (hsync : t.totalSavings = t.nominalDollarsSaved) :
    (applySimOp op t).savingsVehicle = Vehicle.usd ∧
    (applySimOp op t).totalSavings = (applySimOp op t).nominalDollarsSaved := by
  cases op with
  | resetOp amount d => simp [applySimOp, SimState.reset]; exact hv
  | saveOp m =>
    simp only [applySimOp, SimState.addMonthlySavingsToPig]
    split
    · exact ⟨hv, hsync⟩
    · rw [hv]
      simp only [SimState.addToTotalSavings, SimState.updateFillLevel]
      split <;> simp [hsync, hv]
  | inflOp r =>
    simp [applySimOp, SimState.applyMonthlyInflation, SimState.updateFillLevel, hv, hsync]
  | mugOp d =>
    simp only [applySimOp, SimState.addInflationLossToMug, SimState.addToBankSavings,
      SimState.updateMugFillLevel]
    split
    · exact ⟨hv, hsync⟩
    · split <;> simp [hv, hsync]
  | advOp d => simp [applySimOp, SimState.advanceMonth, hv, hsync]
  | advFinOp d =>
    simp [applySimOp, SimState.advanceMonthFinishing, SimState.advanceMonth, hv, hsync]
  | vehOp v => simp [SimOp.isVehicleSwitch] at hop
  | pauseOp b => simp [applySimOp, SimState.setPaused, hv, hsync]

lemma usdSync_run (ops : List SimOp) (t : SimState)
    (hops : ∀ op ∈ ops, op.isVehicleSwitch = false)
    (hv : t.savingsVehicle = Vehicle.usd)
    (hsync : t.totalSavings = t.nominalDollarsSaved) :
    (runOps ops t).savingsVehicle = Vehicle.usd ∧
    (runOps ops t).totalSavings = (runOps ops t).nominalDollarsSaved := by
  induction ops generalizing t with
  | nil => exact ⟨hv, hsync⟩
  | cons op rest ih =>
    simp only [runOps, List.foldl_cons]
    have hstep := usdSync_step op t (hops op (List.mem_cons_self op rest)) hv hsync
    exact ih (applySimOp op t) (fun o ho => hops o (List.mem_cons_of_mem op ho))
      hstep.1 hstep.2

/-- C10.  In a run that resets while holding the USD vehicle and never
calls `setSavingsVehicle`, `totalSavings` equals `nominalDollarsSaved`
after the reset (both are initialised to the start amount) and after every
subsequent transition — in particular after every
`addMonthlySavingsToPig`, which increments both by the same amount in USD
mode. -/
theorem usd_total_equals_nominal (s : SimState) (amount startDate : ℝ)
    (ops : List SimOp) (hveh : s.savingsVehicle = Vehicle.usd)
    (hops : ∀ op ∈ ops, op.isVehicleSwitch = false) :
    (runOps ops (s.reset amount startDate)).totalSavings
      = (runOps ops (s.reset amount startDate)).nominalDollarsSaved := by
  have h0 : (s.reset amount startDate).savingsVehicle = Vehicle.usd := by
    simpa [SimState.reset] using hveh
  have h1 : (s.reset amount startDate).totalSavings
      = (s.reset amount startDate).nominalDollarsSaved := by
    simp [SimState.reset]
  exact (usdSync_run ops (s.reset amount startDate) hops h0 h1).2

/-- C10 witness: a reset followed by one monthly deposit. -/
theorem usd_total_equals_nominal_witness :
    (runOps [SimOp.saveOp 100] (sampleState.reset 50000 6000)).totalSavings
      = (runOps [SimOp.saveOp 100] (sampleState.reset 50000 6000)).nominalDollarsSaved :=
  usd_total_equals_nominal sampleState 50000 6000 [SimOp.saveOp 100] rfl
    (by intro op hop; simp at hop; subst hop; rfl)

/-! ### C2: the Finished state after 360 advanced months -/

/-- True exactly on the spec-modelled finishing month advances. -/
def SimOp.isFinAdvance : SimOp → Bool
  | SimOp.advFinOp _ => true
  | _ => false

/-- Ops allowed in a modelled run for C2: anything except `reset` (the
claim tracks one run) and except the raw `advanceMonth` (in the modelled
world every month advance is the finishing one). -/
def C2OpOk : SimOp → Prop
  | SimOp.resetOp _ _ => False
  | SimOp.advOp _ => False
  | _ => True

lemma c2_months_step (op : SimOp) (t : SimState) (hop : C2OpOk op) :
    (applySimOp op t).monthsAdvanced
      = t.monthsAdvanced + (if op.isFinAdvance then 1 else 0) := by
  cases op with
  | resetOp a d => exact absurd hop (by simp [C2OpOk])
  | advOp d => exact absurd hop (by simp [C2OpOk])
  | advFinOp d =>
    simp [applySimOp, SimState.advanceMonthFinishing, SimState.advanceMonth, SimOp.isFinAdvance]
  | saveOp m =>
    simp only [applySimOp, SimState.addMonthlySavingsToPig, SimOp.isFinAdvance,
      SimState.addToTotalSavings, SimState.updateFillLevel]
    split
    · simp
    · cases t.savingsVehicle <;> (dsimp only []; split <;> simp)
  | inflOp r =>
    simp [applySimOp, SimState.applyMonthlyInflation, SimState.updateFillLevel,
      SimOp.isFinAdvance]
  | mugOp d =>
    simp only [applySimOp, SimState.addInflationLossToMug, SimState.addToBankSavings,
      SimState.updateMugFillLevel, SimOp.isFinAdvance]
    split
    · simp
    · split <;> simp
  | vehOp v =>
    simp only [applySimOp, SimState.setSavingsVehicle, SimState.convertSavingsVehicle,
      SimOp.isFinAdvance]
    split
    · split
      · simp
      · split <;> simp
    · simp
  | pauseOp b => simp [applySimOp, SimState.setPaused, SimOp.isFinAdvance]

lemma c2_flag_step (op : SimOp) (t : SimState) (hop : C2OpOk op)
    (hinv : 360 ≤ t.monthsAdvanced → t.isSimulationFinished = true) :
    360 ≤ (applySimOp op t).monthsAdvanced →
      (applySimOp op t).isSimulationFinished = true := by
  cases op with
  | resetOp a d => exact absurd hop (by simp [C2OpOk])
  | advOp d => exact absurd hop (by simp [C2OpOk])
  | advFinOp d =>
    intro h
    simp only [applySimOp, SimState.advanceMonthFinishing, SimState.advanceMonth] at h ⊢
    simpa using h
  | saveOp m =>
    simp only [applySimOp, SimState.addMonthlySavingsToPig, SimState.addToTotalSavings,
      SimState.updateFillLevel]
    split
    · exact hinv
    · cases t.savingsVehicle <;> (dsimp only []; split <;> simpa using hinv)
  | inflOp r =>
    simpa [applySimOp, SimState.applyMonthlyInflation, SimState.updateFillLevel] using hinv
  | mugOp d =>
    simp only [applySimOp, SimState.addInflationLossToMug, SimState.addToBankSavings,
      SimState.updateMugFillLevel]
    split
    · exact hinv
    · split <;> simpa using hinv
  | vehOp v =>
    simp only [applySimOp, SimState.setSavingsVehicle, SimState.convertSavingsVehicle]
    split
    · split
      · simpa using hinv
      · split <;> simpa using hinv
    · simpa using hinv
  | pauseOp b => simpa [applySimOp, SimState.setPaused] using hinv

lemma c2_run (ops : List SimOp) (t : SimState) (hops : ∀ op ∈ ops, C2OpOk op) :
    (runOps ops t).monthsAdvanced
        = t.monthsAdvanced + ops.countP SimOp.isFinAdvance ∧
    ((360 ≤ t.monthsAdvanced → t.isSimulationFinished = true) →
      360 ≤ (runOps ops t).monthsAdvanced →
        (runOps ops t).isSimulationFinished = true) := by
  induction ops generalizing t with
  | nil => simp [runOps]
  | cons op rest ih =>
    have hop := hops op (List.mem_cons_self op rest)
    have hrest : ∀ o ∈ rest, C2OpOk o := fun o ho => hops o (List.mem_cons_of_mem op ho)
    have hih := ih (applySimOp op t) hrest
    constructor
    · simp only [runOps, List.foldl_cons] at hih ⊢
      rw [hih.1, c2_months_step op t hop, List.countP_cons]
      cases hfa : op.isFinAdvance
      · simp [hfa]
      · simp [hfa]
        omega
    · intro hinv
      simp only [runOps, List.foldl_cons]
      exact hih.2 (c2_flag_step op t hop hinv)

/-- C2 (settled against the spec-modelled Finished transition, since the
code that sets `isSimulationFinished` to true is not under src).  A `reset`
leaves the flag false; and in any run from a reset whose operations avoid
`reset` and use the modelled finishing month advance, once 360 month
advances have occurred the flag is true — and it stays true under every
further non-reset operation, since only `reset` sets it back to false. -/
theorem finished_after_360_months :
    (∀ (s : SimState) (amount startDate : ℝ),
        (s.reset amount startDate).isSimulationFinished = false) ∧
    (∀ (s : SimState) (amount startDate : ℝ) (ops : List SimOp),
        (∀ op ∈ ops, C2OpOk op) →
        360 ≤ ops.countP SimOp.isFinAdvance →
        (runOps ops (s.reset amount startDate)).isSimulationFinished = true) := by
  constructor
  · intro s amount startDate
    rfl
  · intro s amount startDate ops hops hcount
    have h := c2_run ops (s.reset amount startDate) hops
    have h0 : (s.reset amount startDate).monthsAdvanced = 0 := rfl
    refine h.2 ?_ ?_
    · intro habs
      rw [h0] at habs
      omega
    · rw [h.1, h0]
      omega

lemma countP_replicate_finAdvance (n : ℕ) (d : ℝ) :
    (List.replicate n (SimOp.advFinOp d)).countP SimOp.isFinAdvance = n := by
  induction n with
  | zero => simp
  | succ k ih =>
    simp [List.replicate_succ, List.countP_cons, ih, SimOp.isFinAdvance]

/-- C2 witness: a run of exactly 360 modelled month advances. -/
theorem finished_after_360_months_witness :
    (runOps (List.replicate 360 (SimOp.advFinOp 6030))
        (sampleState.reset 50000 6000)).isSimulationFinished = true :=
  finished_after_360_months.2 sampleState 50000 6000
    (List.replicate 360 (SimOp.advFinOp 6030))
    (by
      intro op hop
      rw [List.eq_of_mem_replicate hop]
      trivial)
    (by rw [countP_replicate_finAdvance])

/-! ### C4: fill levels stay in [0, 100] -/

/-- The clamping invariant of the spec: both fill levels within [0,100]. -/
def FillInvariant (s : SimState) : Prop :=
  0 ≤ s.fillLevel ∧ s.fillLevel ≤ 100 ∧ 0 ≤ s.mugFillLevel ∧ s.mugFillLevel ≤ 100

/-- The one input restriction the amended claim needs: a reset's start
amount must lie in the start-amount slider range `[0, 100000]`
(`reset` writes `fillLevel` without clamping).  All other transitions
accept arbitrary numeric inputs. -/
def ResetInputOk : SimOp → Prop
  | SimOp.resetOp amount _ => 0 ≤ amount ∧ amount ≤ PIG_CAPACITY_DOLLARS
  | _ => True

lemma clamp_nonneg (x : ℝ) : 0 ≤ min 100 (max 0 x) :=
  le_min (by norm_num) (le_max_left 0 x)

lemma clamp_le_100 (x : ℝ) : min 100 (max 0 x) ≤ 100 := min_le_left _ _

lemma calculateFullPigInBtc_eq (date : ℝ) :
    calculateFullPigInBtc date = PIG_CAPACITY_DOLLARS / getBitcoinPowerLawPrice date := by
  have hp := btcPrice_pos date
  have hpos : 0 < PIG_CAPACITY_DOLLARS / getBitcoinPowerLawPrice date := by
    rw [PIG_CAPACITY_DOLLARS]
    positivity
  simp only [calculateFullPigInBtc, convertUsdToBtc]
  rw [if_neg (by norm_num [PIG_CAPACITY_DOLLARS]), if_neg (not_le.mpr hpos)]

/-- After a reset the pig's fill level is `amount / capacity * 100` in both
vehicles: the BTC branch divides the BTC-converted amount by the
BTC-converted capacity at the same price point. -/
lemma reset_fillLevel (s : SimState) (amount startDate : ℝ) :
    (s.reset amount startDate).fillLevel = amount / PIG_CAPACITY_DOLLARS * 100 := by
  cases hveh : s.savingsVehicle with
  | usd => simp [SimState.reset, hveh]
  | btc =>
    have hp : getBitcoinPowerLawPrice startDate ≠ 0 := (btcPrice_pos startDate).ne'
    have hcap : PIG_CAPACITY_DOLLARS ≠ 0 := by norm_num [PIG_CAPACITY_DOLLARS]
    simp only [SimState.reset, hveh, if_pos, calculateFullPigInBtc_eq, convertUsdToBtc]
    rw [div_div_div_cancel_right₀]
    exact hp

/-- C4 (amended).  Every transition preserves the clamping invariant
`fillLevel, mugFillLevel ∈ [0,100]` for arbitrary numeric inputs, except
that `reset` — which writes `fillLevel` without clamping — needs its start
amount inside the slider range `[0, 100000]`. -/
theorem fill_levels_clamped (s : SimState) (op : SimOp)
    (hs : FillInvariant s) (hop : ResetInputOk op) :
    FillInvariant (applySimOp op s) := by
  obtain ⟨hf0, hf1, hm0, hm1⟩ := hs
  cases op with
  | resetOp amount d =>
    obtain ⟨ha0, ha1⟩ := hop
    have hfe := reset_fillLevel s amount d
    refine ⟨?_, ?_, ?_, ?_⟩
    · rw [applySimOp, hfe]
      exact mul_nonneg (div_nonneg ha0 (by norm_num [PIG_CAPACITY_DOLLARS])) (by norm_num)
    · rw [applySimOp, hfe]
      rw [div_mul_eq_mul_div, div_le_iff₀ (by norm_num [PIG_CAPACITY_DOLLARS] : (0:ℝ) < PIG_CAPACITY_DOLLARS)]
      rw [PIG_CAPACITY_DOLLARS] at ha1 ⊢
      linarith
    · simp [applySimOp, SimState.reset]
    · simp [applySimOp, SimState.reset]
  | saveOp m =>
    simp only [applySimOp, SimState.addMonthlySavingsToPig]
    split
    · exact ⟨hf0, hf1, hm0, hm1⟩
    · cases s.savingsVehicle
      · dsimp only
        split
        · exact ⟨clamp_nonneg _, clamp_le_100 _, hm0, hm1⟩
        · exact ⟨clamp_nonneg _, clamp_le_100 _, hm0, hm1⟩
      · dsimp only
        split
        · exact ⟨clamp_nonneg _, clamp_le_100 _, hm0, hm1⟩
        · exact ⟨clamp_nonneg _, clamp_le_100 _, hm0, hm1⟩
  | inflOp r =>
    exact ⟨clamp_nonneg _, clamp_le_100 _, hm0, hm1⟩
  | mugOp d =>
    simp only [applySimOp, SimState.addInflationLossToMug, SimState.addToBankSavings,
      SimState.updateMugFillLevel]
    split
    · exact ⟨hf0, hf1, hm0, hm1⟩
    · split
      · exact ⟨hf0, hf1, clamp_nonneg _, clamp_le_100 _⟩
      · exact ⟨hf0, hf1, hm0, hm1⟩
  | advOp d => exact ⟨hf0, hf1, hm0, hm1⟩
  | advFinOp d => exact ⟨hf0, hf1, hm0, hm1⟩
  | vehOp v =>
    simp only [applySimOp, SimState.setSavingsVehicle, SimState.convertSavingsVehicle]
    split
    · split
      · exact ⟨hf0, hf1, hm0, hm1⟩
      · split
        · exact ⟨hf0, hf1, hm0, hm1⟩
        · exact ⟨hf0, hf1, hm0, hm1⟩
    · exact ⟨hf0, hf1, hm0, hm1⟩
  | pauseOp b => exact ⟨hf0, hf1, hm0, hm1⟩

/-- C4 counterexample to the claim as stated: for an out-of-range numeric
input, `reset` leaves `fillLevel` outside [0,100] — it writes the level
without clamping, so a start amount of 200000 yields a fill level of 200. -/
theorem fill_levels_clamped_counterexample :
    100 < (applySimOp (SimOp.resetOp 200000 6000) sampleState).fillLevel := by
  have h := reset_fillLevel sampleState 200000 6000
  rw [applySimOp, h, PIG_CAPACITY_DOLLARS]
  norm_num

/-- C4 witness: the invariant is preserved across a concrete deposit. -/
theorem fill_levels_clamped_witness :
    FillInvariant (applySimOp (SimOp.saveOp 100) sampleState) :=
  fill_levels_clamped sampleState (SimOp.saveOp 100)
    (by refine ⟨?_, ?_, ?_, ?_⟩ <;> norm_num [sampleState]) trivial

/-! ### C5: monotonicity of nominal savings, bank savings and factor -/

/-- The C5 sequences: deposits with a non-negative monthly savings input,
and inflation applications whose monthly rate comes from an annual rate in
the inflation slider range 5 to 20 percent. -/
def MonotoneOpOk : SimOp → Prop
  | SimOp.saveOp m => 0 ≤ m
  | SimOp.inflOp r => ∃ a : ℝ, 5/100 ≤ a ∧ a ≤ 20/100 ∧ r = getMonthlyCompoundRate a
  | _ => False

lemma monotone_step (op : SimOp) (t : SimState) (hop : MonotoneOpOk op)
    (hfac : 0 ≤ t.cumulativeInflationFactor) :
    t.nominalDollarsSaved ≤ (applySimOp op t).nominalDollarsSaved ∧
    t.totalBankSavings ≤ (applySimOp op t).totalBankSavings ∧
    t.cumulativeInflationFactor ≤ (applySimOp op t).cumulativeInflationFactor ∧
    0 ≤ (applySimOp op t).cumulativeInflationFactor := by
  cases op with
  | saveOp m =>
    have hm : (0:ℝ) ≤ m := hop
    simp only [applySimOp, SimState.addMonthlySavingsToPig]
    split
    · exact ⟨le_refl _, le_refl _, le_refl _, hfac⟩
    · cases t.savingsVehicle
      · dsimp only [SimState.addToTotalSavings, SimState.updateFillLevel]
        split
        · exact ⟨by simp; linarith, le_refl _, le_refl _, hfac⟩
        · exact ⟨by simp; linarith, le_refl _, le_refl _, hfac⟩
      · dsimp only [SimState.updateFillLevel]
        split
        · exact ⟨by simp; linarith, le_refl _, le_refl _, hfac⟩
        · exact ⟨by simp; linarith, le_refl _, le_refl _, hfac⟩
  | inflOp r =>
    obtain ⟨a, ha0, ha1, har⟩ := hop
    have hr : 0 ≤ r := by
      rw [har]
      exact monthlyRate_nonneg (by linarith)
    refine ⟨le_refl _, le_refl _, ?_, ?_⟩
    · simp only [applySimOp, SimState.applyMonthlyInflation, SimState.updateFillLevel]
      nlinarith
    · simp only [applySimOp, SimState.applyMonthlyInflation, SimState.updateFillLevel]
      nlinarith
  | resetOp a d => exact absurd hop (by simp [MonotoneOpOk])
  | mugOp d => exact absurd hop (by simp [MonotoneOpOk])
  | advOp d => exact absurd hop (by simp [MonotoneOpOk])
  | advFinOp d => exact absurd hop (by simp [MonotoneOpOk])
  | vehOp v => exact absurd hop (by simp [MonotoneOpOk])
  | pauseOp b => exact absurd hop (by simp [MonotoneOpOk])

/-- C5.  Over any sequence of `addMonthlySavingsToPig` calls with
non-negative monthly savings and `applyMonthlyInflation` calls whose rate
comes from the inflation slider range, `nominalDollarsSaved` and
`totalBankSavings` never decrease (the latter is in fact untouched by
these two transitions) and `cumulativeInflationFactor` never decreases,
starting from any state with a non-negative factor (it is 1 after reset). -/
theorem savings_monotone (ops : List SimOp) (s : SimState)
    (hops : ∀ op ∈ ops, MonotoneOpOk op) (hfac : 0 ≤ s.cumulativeInflationFactor) :
    s.nominalDollarsSaved ≤ (runOps ops s).nominalDollarsSaved ∧
    s.totalBankSavings ≤ (runOps ops s).totalBankSavings ∧
    s.cumulativeInflationFactor ≤ (runOps ops s).cumulativeInflationFactor := by
  induction ops generalizing s with
  | nil => exact ⟨le_refl _, le_refl _, le_refl _⟩
  | cons op rest ih =>
    have hstep := monotone_step op s (hops op (List.mem_cons_self op rest)) hfac
    have hrest := ih (applySimOp op s)
      (fun o ho => hops o (List.mem_cons_of_mem op ho)) hstep.2.2.2
    simp only [runOps, List.foldl_cons] at hrest ⊢
    exact ⟨le_trans hstep.1 hrest.1, le_trans hstep.2.1 hrest.2.1,
      le_trans hstep.2.2.1 hrest.2.2⟩

/-- C5 witness: one deposit followed by one slider-range inflation step. -/
theorem savings_monotone_witness :
    sampleState.nominalDollarsSaved
        ≤ (runOps [SimOp.saveOp 100, SimOp.inflOp (getMonthlyCompoundRate (7/100))]
            sampleState).nominalDollarsSaved ∧
    sampleState.totalBankSavings
        ≤ (runOps [SimOp.saveOp 100, SimOp.inflOp (getMonthlyCompoundRate (7/100))]
            sampleState).totalBankSavings ∧
    sampleState.cumulativeInflationFactor
        ≤ (runOps [SimOp.saveOp 100, SimOp.inflOp (getMonthlyCompoundRate (7/100))]
            sampleState).cumulativeInflationFactor :=
  savings_monotone [SimOp.saveOp 100, SimOp.inflOp (getMonthlyCompoundRate (7/100))]
    sampleState
    (by
      intro op hop
      simp only [List.mem_cons, List.mem_singleton] at hop
      rcases hop with h | h | h
      · rw [h]; norm_num [MonotoneOpOk]
      · rw [h]
        exact ⟨7/100, by norm_num, by norm_num, rfl⟩
      · exact absurd h (List.not_mem_nil op))
    (by norm_num [sampleState])

/-! ### Twelfth-root comparison helpers and rounding bounds -/

lemma rpow_twelfth_eq_self (x : ℝ) (hx : 0 ≤ x) :
    (x ^ ((1:ℝ)/12)) ^ (12:ℕ) = x := by
  have h12 : ((1:ℝ)/12) = (((12:ℕ):ℝ))⁻¹ := by norm_num
  rw [h12, Real.rpow_inv_natCast_pow hx (by norm_num)]

lemma lt_rpow_twelfth_of_pow_lt {x c : ℝ} (hx : 0 ≤ x) (_hc : 0 ≤ c)
    (h : c ^ (12:ℕ) < x) : c < x ^ ((1:ℝ)/12) := by
  by_contra hle
  push_neg at hle
  have h2 : (x ^ ((1:ℝ)/12)) ^ (12:ℕ) ≤ c ^ (12:ℕ) :=
    pow_le_pow_left₀ (Real.rpow_nonneg hx _) hle 12
  rw [rpow_twelfth_eq_self x hx] at h2
  linarith

lemma rpow_twelfth_lt_of_pow_lt {x c : ℝ} (hx : 0 ≤ x) (hc : 0 ≤ c)
    (h : x < c ^ (12:ℕ)) : x ^ ((1:ℝ)/12) < c := by
  by_contra hle
  push_neg at hle
  have h2 : c ^ (12:ℕ) ≤ (x ^ ((1:ℝ)/12)) ^ (12:ℕ) := pow_le_pow_left₀ hc hle 12
  rw [rpow_twelfth_eq_self x hx] at h2
  linarith

lemma rpow_twelfth_le_of_le_pow {x c : ℝ} (hx : 0 ≤ x) (hc : 0 ≤ c)
    (h : x ≤ c ^ (12:ℕ)) : x ^ ((1:ℝ)/12) ≤ c := by
  by_contra hle
  push_neg at hle
  have h2 : c ^ (12:ℕ) < (x ^ ((1:ℝ)/12)) ^ (12:ℕ) :=
    pow_lt_pow_left₀ hle hc (by norm_num)
  rw [rpow_twelfth_eq_self x hx] at h2
  linarith

lemma jsRound_le (x : ℝ) : (jsRound x : ℝ) ≤ x + 1/2 := Int.floor_le _

lemma jsRound_gt (x : ℝ) : x - 1/2 < (jsRound x : ℝ) := by
  have h := Int.lt_floor_add_one (x + 1/2)
  unfold jsRound
  push_cast at h ⊢
  linarith

lemma balancedStartD_eq (m a : ℝ) (ha : a/100 ≠ 0) :
    calculateBalancedStartAmountD m a
      = max 0 (min 100000
          ((jsRound (m / getMonthlyCompoundRate (a/100) / 1000) : ℝ) * 1000)) := by
  simp only [calculateBalancedStartAmountD, calculateBalancedStartAmount]
  rw [if_neg ha]

lemma balancedSavingsD_eq (x a : ℝ) :
    calculateBalancedSavingsD x a
      = max 0 (min 1000
          ((jsRound (x * getMonthlyCompoundRate (a/100) / 10) : ℝ) * 10)) := rfl

/-- Rational bracketing of the 12%-annual monthly compound rate, tight
enough to determine the rounded balanced start amount for $560/month. -/
lemma rate12_bounds :
    4/425 < getMonthlyCompoundRate ((12:ℝ)/100) ∧
    getMonthlyCompoundRate ((12:ℝ)/100) ≤ 28/2925 := by
  have hbase : (1:ℝ) + 12/100 = 112/100 := by norm_num
  constructor
  · have h : ((429:ℝ)/425) ^ (12:ℕ) < 112/100 := by norm_num
    have h2 : (429:ℝ)/425 < (112/100 : ℝ) ^ ((1:ℝ)/12) :=
      lt_rpow_twelfth_of_pow_lt (by norm_num) (by norm_num) h
    simp only [getMonthlyCompoundRate, hbase]
    linarith [h2]
  · have h : (112:ℝ)/100 ≤ ((2953:ℝ)/2925) ^ (12:ℕ) := by norm_num
    have h2 : ((112:ℝ)/100) ^ ((1:ℝ)/12) ≤ 2953/2925 :=
      rpow_twelfth_le_of_le_pow (by norm_num) (by norm_num) h
    simp only [getMonthlyCompoundRate, hbase]
    linarith [h2]

/-! ### C7: the balanced start amount solver -/

/-- C7.  `calculateBalancedStartAmount` (at its JS default rounding and
clamping parameters) returns the max clamp 100000 when the annual
inflation percentage is 0; otherwise it returns `monthlySavings` divided
by the monthly compound rate, rounded half-up to the nearest 1000 and
clamped to `[0, 100000]`; and in particular it maps `(560, 12)` to 59000. -/
theorem balanced_start_amount_spec :
    (∀ m : ℝ, calculateBalancedStartAmountD m 0 = 100000) ∧
    (∀ m a : ℝ, a ≠ 0 →
      calculateBalancedStartAmountD m a
        = max 0 (min 100000
            ((jsRound (m / getMonthlyCompoundRate (a/100) / 1000) : ℝ) * 1000))) ∧
    calculateBalancedStartAmountD 560 12 = 59000 := by
  refine ⟨?_, ?_, ?_⟩
  · intro m
    simp [calculateBalancedStartAmountD, calculateBalancedStartAmount]
  · intro m a ha
    exact balancedStartD_eq m a (by
      intro hcon
      exact ha (by linarith [(div_eq_zero_iff.mp hcon).resolve_right (by norm_num)]))
  · rw [balancedStartD_eq 560 12 (by norm_num)]
    obtain ⟨hlo, hhi⟩ := rate12_bounds
    have hr0 : 0 < getMonthlyCompoundRate ((12:ℝ)/100) := lt_trans (by norm_num) hlo
    have hjr : jsRound (560 / getMonthlyCompoundRate ((12:ℝ)/100) / 1000) = 59 := by
      have hAlo : (58500:ℝ) ≤ 560 / getMonthlyCompoundRate ((12:ℝ)/100) := by
        rw [le_div_iff₀ hr0]
        nlinarith
      have hAhi : 560 / getMonthlyCompoundRate ((12:ℝ)/100) < 59500 := by
        rw [div_lt_iff₀ hr0]
        nlinarith
      unfold jsRound
      rw [Int.floor_eq_iff]
      constructor
      · push_cast
        nlinarith
      · push_cast
        nlinarith
    rw [hjr]
    norm_num

/-- C7 witness: the non-zero-inflation branch applied at a concrete input. -/
theorem balanced_start_amount_spec_witness :
    calculateBalancedStartAmountD 3 12
      = max 0 (min 100000
          ((jsRound (3 / getMonthlyCompoundRate ((12:ℝ)/100) / 1000) : ℝ) * 1000)) :=
  balanced_start_amount_spec.2.1 3 12 (by norm_num)

/-! ### C8: the balanced-values round trip -/

/-- C8 (amended).  For a monthly savings `S` in the slider range [0,1000]
and an annual inflation percentage `I` in [5,20], provided the ideal
balanced start amount `S / monthlyRate` does not exceed the 100000 clamp
of `calculateBalancedStartAmount`, the round trip
`calculateBalancedSavings (calculateBalancedStartAmount S I) I` returns
`S` up to `500·monthlyRate + 5` — exactly the tolerance induced by
rounding the start amount to the nearest 1000 and the savings to the
nearest 10. -/
theorem balanced_round_trip (S I : ℝ) (hS0 : 0 ≤ S) (hS1 : S ≤ 1000)
    (hI0 : 5 ≤ I) (_hI1 : I ≤ 20)
    (hclamp : S / getMonthlyCompoundRate (I/100) ≤ 100000) :
    |calculateBalancedSavingsD (calculateBalancedStartAmountD S I) I - S|
      ≤ 500 * getMonthlyCompoundRate (I/100) + 5 := by
  have hr : 0 < getMonthlyCompoundRate (I/100) := monthlyRate_pos (by linarith)
  set r := getMonthlyCompoundRate (I/100) with hrdef
  set A := S / r with hAdef
  have hA0 : 0 ≤ A := div_nonneg hS0 hr.le
  have hSA : A * r = S := div_mul_cancel₀ S hr.ne'
  -- the rounded start amount and the fact that the clamps are inactive
  have hstart : calculateBalancedStartAmountD S I
      = (jsRound (A/1000) : ℝ) * 1000 := by
    rw [balancedStartD_eq S I (by positivity)]
    have hj0 : (0:ℤ) ≤ jsRound (A/1000) := by
      unfold jsRound
      rw [Int.le_floor]
      push_cast
      have : (0:ℝ) ≤ A / 1000 := by positivity
      linarith
    have hj1 : jsRound (A/1000) ≤ 100 := by
      have hlt : jsRound (A/1000) < 101 := by
        unfold jsRound
        rw [Int.floor_lt]
        push_cast
        have : A / 1000 ≤ 100 := by
          rw [div_le_iff₀ (by norm_num)]
          linarith
        linarith
      omega
    have hR0 : (0:ℝ) ≤ (jsRound (A/1000) : ℝ) * 1000 := by
      have : (0:ℝ) ≤ (jsRound (A/1000) : ℝ) := by exact_mod_cast hj0
      linarith
    have hR1 : (jsRound (A/1000) : ℝ) * 1000 ≤ 100000 := by
      have : (jsRound (A/1000) : ℝ) ≤ 100 := by exact_mod_cast hj1
      linarith
    rw [min_eq_right hR1, max_eq_right hR0]
  -- bracket the rounded start amount around the ideal one
  have hRlo : A - 500 < (jsRound (A/1000) : ℝ) * 1000 := by
    have h := jsRound_gt (A/1000)
    nlinarith
  have hRhi : (jsRound (A/1000) : ℝ) * 1000 ≤ A + 500 := by
    have h := jsRound_le (A/1000)
    nlinarith
  -- the resulting monthly savings before its rounding
  set R := (jsRound (A/1000) : ℝ) * 1000 with hRdef
  have hVlo : S - 500 * r < R * r := by
    have := mul_lt_mul_of_pos_right hRlo hr
    nlinarith
  have hVhi : R * r ≤ S + 500 * r := by
    have := mul_le_mul_of_nonneg_right hRhi hr.le
    nlinarith
  -- rounding of the savings result
  have hWlo : R * r - 5 < (jsRound (R * r / 10) : ℝ) * 10 := by
    have h := jsRound_gt (R * r / 10)
    nlinarith
  have hWhi : (jsRound (R * r / 10) : ℝ) * 10 ≤ R * r + 5 := by
    have h := jsRound_le (R * r / 10)
    nlinarith
  set W := (jsRound (R * r / 10) : ℝ) * 10 with hWdef
  -- the final clamp can only move the result toward [0,1000] ∋ S
  have hres : calculateBalancedSavingsD (calculateBalancedStartAmountD S I) I
      = max 0 (min 1000 W) := by
    rw [hstart, balancedSavingsD_eq]
  rw [hres, abs_le]
  have ht : 0 ≤ 500 * r + 5 := by nlinarith
  constructor
  · -- lower bound: the clamped value is at least S - (500r + 5)
    rcases le_total W 1000 with hc | hc
    · rw [min_eq_right hc]
      have h1 : W ≤ max 0 W := le_max_right _ _
      nlinarith
    · rw [min_eq_left hc]
      have h1 : (1000:ℝ) ≤ max 0 1000 := le_max_right _ _
      nlinarith
  · -- upper bound: the clamped value is at most S + (500r + 5)
    rcases le_total (min 1000 W) 0 with hc | hc
    · rw [max_eq_left hc]
      nlinarith
    · rw [max_eq_right hc]
      have h2 : min 1000 W ≤ W := min_le_right _ _
      nlinarith

/-- C8 witness at `S = 0, I = 12` (the ideal start amount 0 is inside the
clamp range). -/
theorem balanced_round_trip_witness :
    |calculateBalancedSavingsD (calculateBalancedStartAmountD 0 12) 12 - 0|
      ≤ 500 * getMonthlyCompoundRate ((12:ℝ)/100) + 5 :=
  balanced_round_trip 0 12 (by norm_num) (by norm_num) (by norm_num) (by norm_num)
    (by rw [zero_div]; norm_num)

/-- Rational bracketing of the 5%-annual monthly compound rate. -/
lemma rate5_bounds :
    405/100000 < getMonthlyCompoundRate ((5:ℝ)/100) ∧
    getMonthlyCompoundRate ((5:ℝ)/100) < 41/10000 := by
  have hbase : (1:ℝ) + 5/100 = 105/100 := by norm_num
  constructor
  · have h : ((20081:ℝ)/20000) ^ (12:ℕ) < 105/100 := by norm_num
    have h2 : (20081:ℝ)/20000 < ((105:ℝ)/100) ^ ((1:ℝ)/12) :=
      lt_rpow_twelfth_of_pow_lt (by norm_num) (by norm_num) h
    simp only [getMonthlyCompoundRate, hbase]
    linarith
  · have h : (105:ℝ)/100 < ((10041:ℝ)/10000) ^ (12:ℕ) := by norm_num
    have h2 : ((105:ℝ)/100) ^ ((1:ℝ)/12) < (10041:ℝ)/10000 :=
      rpow_twelfth_lt_of_pow_lt (by norm_num) (by norm_num) h
    simp only [getMonthlyCompoundRate, hbase]
    linarith

/-- C8 counterexample to the claim as stated over the full slider ranges:
at `S = 1000, I = 5` the ideal balanced start amount (about 245452) is cut
down to 100000 by the clamp, and the round trip returns 410 — off from
1000 by 590, far beyond the rounding tolerance `500·monthlyRate + 5 < 8`. -/
theorem balanced_round_trip_counterexample :
    500 * getMonthlyCompoundRate ((5:ℝ)/100) + 5
      < |calculateBalancedSavingsD (calculateBalancedStartAmountD 1000 5) 5 - 1000| := by
  obtain ⟨hlo, hhi⟩ := rate5_bounds
  have hr : 0 < getMonthlyCompoundRate ((5:ℝ)/100) := by linarith
  set r := getMonthlyCompoundRate ((5:ℝ)/100) with hrdef
  -- the ideal start amount exceeds the clamp by a wide margin
  have hAlo : (243500:ℝ) ≤ 1000 / r := by
    rw [le_div_iff₀ hr]
    nlinarith
  -- the start amount clamps to exactly 100000
  have hstart : calculateBalancedStartAmountD 1000 5 = 100000 := by
    rw [balancedStartD_eq 1000 5 (by norm_num), ← hrdef]
    have hj : (244:ℤ) ≤ jsRound (1000 / r / 1000) := by
      unfold jsRound
      rw [Int.le_floor]
      push_cast
      have : (243.5:ℝ) ≤ 1000 / r / 1000 := by
        rw [le_div_iff₀ (by norm_num)]
        linarith
      linarith
    have hRc : (100000:ℝ) ≤ (jsRound (1000 / r / 1000) : ℝ) * 1000 := by
      have : (244:ℝ) ≤ (jsRound (1000 / r / 1000) : ℝ) := by exact_mod_cast hj
      linarith
    rw [min_eq_left hRc, max_eq_right (by norm_num)]
  -- the balanced savings at the clamped start amount is exactly 410
  have hsav : calculateBalancedSavingsD 100000 5 = 410 := by
    rw [balancedSavingsD_eq, ← hrdef]
    have hj : jsRound (100000 * r / 10) = 41 := by
      unfold jsRound
      rw [Int.floor_eq_iff]
      constructor
      · push_cast
        nlinarith
      · push_cast
        nlinarith
    rw [hj]
    norm_num
  rw [hstart, hsav]
  have habs : |(410:ℝ) - 1000| = 590 := by
    rw [show (410:ℝ) - 1000 = -590 by norm_num, abs_neg, abs_of_nonneg (by norm_num)]
  rw [habs]
  nlinarith
